import Mathlib

/-!
Formal model of the DQN agent implemented in `rl_exercises/week_4/dqn.py`.

Numeric values computed by the agent are modelled as rationals.  The
exploration schedule, which uses the real exponential, is modelled over the
reals.  The neural network, the optimizer and the environment are external
collaborators of the file under study; they appear here as explicit function
parameters (`net`, `gradStep`, and the environment streams bundled in
`Collab`).
-/

namespace DQN

/-- One interaction record, as stored by `ReplayBuffer.add` (the unused
auxiliary `info` mapping is omitted; the learner ignores it). -/
structure Transition where
  state : List ℚ
  action : ℕ
  reward : ℚ
  next_state : List ℚ
  done : Bool
  deriving DecidableEq

instance : Inhabited Transition := ⟨⟨[], 0, 0, [], false⟩⟩

/-- The recoverable error taxonomy described by the specification. -/
inductive DQNError where
  | shapeMismatchError
  | insufficientDataError
  | persistenceError
  deriving DecidableEq

/-- Modelled from the spec: `ReplayBuffer` lives in
`rl_exercises/week_4/buffers.py`, which is not among the sources here; the
spec describes it as a fixed-capacity ring store of transitions. -/
structure ReplayBuffer where
  capacity : ℕ
  data : List Transition
  deriving DecidableEq

/-- Modelled from the spec: insertion into the ring buffer; when the buffer
is full the oldest stored transition is discarded first. -/
def ReplayBuffer.add (b : ReplayBuffer) (tr : Transition) : ReplayBuffer :=
  if b.data.length < b.capacity then ⟨b.capacity, b.data ++ [tr]⟩
  else ⟨b.capacity, b.data.tail ++ [tr]⟩

/-- Modelled from the spec: uniform sampling with replacement; requires
current size at least `n`, failing with `InsufficientDataError` otherwise.
The random index draws are the explicit stream `draws`. -/
def ReplayBuffer.sample (b : ReplayBuffer) (n : ℕ) (draws : ℕ → ℕ) :
    Except DQNError (List Transition) :=
  if b.data.length < n then Except.error DQNError.insufficientDataError
  else Except.ok ((List.range n).map fun i => b.data.getD (draws i % b.data.length) default)

/-- Index of the first maximal element of a row of action values (torch
`argmax` over `dim=1`; ties broken by lowest index). -/
def argmaxIdx : List ℚ → ℕ
  | [] => 0
  | x :: xs => if xs.getD (argmaxIdx xs) x ≤ x then 0 else argmaxIdx xs + 1

/-- Per-row maximum of the action values (torch `.max(dim=1)` values). -/
def maxListQ (l : List ℚ) : ℚ := l.foldl max (l.headD 0)

/-- Per-sample selection of the estimate of the taken action (torch
`gather` along the action axis). -/
def gatherPred (q_values : List (List ℚ)) (actions : List ℕ) : List ℚ :=
  List.zipWith (fun row a => row.getD a 0) q_values actions

/-- The vectorised TD-target computation
`target = r + (1.0 - mask) * gamma * max_next_q` from `update_agent`,
where `masks` holds the done flags converted to `0`/`1` scalars. -/
def updateTargets (gamma : ℚ) (rewards masks maxNext : List ℚ) : List ℚ :=
  List.zipWith (fun r dm => r + (1 - dm.1) * gamma * dm.2) rewards (masks.zip maxNext)

/-- The per-sample TD-target formula as stated by the spec. -/
def tdTarget (gamma reward : ℚ) (done : Bool) (maxNextQ : ℚ) : ℚ :=
  reward + (1 - (if done then (1 : ℚ) else 0)) * gamma * maxNextQ

/-- Mean squared error between predictions and targets. -/
def mseLoss (pred target : List ℚ) : ℚ :=
  (List.zipWith (fun p t => (p - t) ^ 2) pred target).sum / pred.length

/-- Modelled from the spec: applying the approximator (`QNetwork`, defined in
`rl_exercises/week_4/networks.py`, not among the sources) to a batch of
states.  Per the spec's error taxonomy it fails with `ShapeMismatchError`
when a state's dimensionality disagrees with the expected input size. -/
def forward (net : List ℚ → List ℚ → List ℚ) (params : List ℚ) (input_dim : ℕ)
    (states : List (List ℚ)) : Except DQNError (List (List ℚ)) :=
  if ∀ s ∈ states, s.length = input_dim then Except.ok (states.map (net params))
  else Except.error DQNError.shapeMismatchError

/-- The agent's mutable state, as initialised by `DQNAgent.__init__`.
Parameter vectors and the optimizer's internal state are opaque numeric
data, modelled as rational vectors. -/
structure AgentState where
  q_params : List ℚ
  target_params : List ℚ
  opt_state : List ℚ
  total_steps : ℕ
  buffer : ReplayBuffer
  frame_history : List ℕ
  mean_reward_history : List ℚ
  batch_size : ℕ
  gamma : ℚ
  target_update_freq : ℕ
  input_dim : ℕ
  num_actions : ℕ
  deriving DecidableEq

/-- `DQNAgent.__init__`: the target network starts as an exact copy of the
online network, the buffer starts empty, `total_steps` starts at zero and
the two history lists start empty. -/
def freshAgent (q0 opt0 : List ℚ) (cap bs : ℕ) (gamma : ℚ) (freq D nA : ℕ) :
    AgentState :=
  { q_params := q0
    target_params := q0
    opt_state := opt0
    total_steps := 0
    buffer := ⟨cap, []⟩
    frame_history := []
    mean_reward_history := []
    batch_size := bs
    gamma := gamma
    target_update_freq := freq
    input_dim := D
    num_actions := nA }

/-- `DQNAgent.epsilon`: the exponential-decay exploration schedule. -/
noncomputable def epsilon (eps_start eps_final eps_decay : ℝ) (total_steps : ℕ) : ℝ :=
  eps_final + (eps_start - eps_final) * Real.exp (-(total_steps : ℝ) / eps_decay)

/-- `DQNAgent.predict_action`.  The two random draws the original may
consume (`np.random.rand()` and `env.action_space.sample()`) are the
explicit arguments `u` and `randA`; the agent state is returned so that the
absence of mutation is visible in the model. -/
noncomputable def predictAction (net : List ℚ → List ℚ → List ℚ)
    (eps_start eps_final eps_decay : ℝ) (st : AgentState) (state : List ℚ)
    (evaluate : Bool) (u : ℝ) (randA : ℕ) : ℕ × AgentState :=
  if evaluate then (argmaxIdx (net st.q_params state), st)
  else if u < epsilon eps_start eps_final eps_decay st.total_steps then
    (randA % st.num_actions, st)
  else (argmaxIdx (net st.q_params state), st)

/-- The single artifact written by `DQNAgent.save`: the online parameters
under key `parameters` and the optimizer state under key `optimizer`. -/
structure Checkpoint where
  parameters : List ℚ
  optimizer : List ℚ
  deriving DecidableEq

/-- `DQNAgent.save`: serialize online parameters and optimizer state. -/
def save (st : AgentState) : Checkpoint := ⟨st.q_params, st.opt_state⟩

/-- `DQNAgent.load`: restore online parameters and optimizer state from the
artifact, fully overwriting the current ones; per the spec it fails with
`PersistenceError` when the stored shapes do not match the current ones. -/
def load (st : AgentState) (c : Checkpoint) : Except DQNError AgentState :=
  if c.parameters.length = st.q_params.length then
    Except.ok { st with q_params := c.parameters, opt_state := c.optimizer }
  else Except.error DQNError.persistenceError

/-- The TD-target pipeline of `update_agent` (lines 248-250): run the target
network on the next states without tracking gradients, take the per-sample
maximum over actions, and combine with rewards and done masks. -/
def computeTargets (net : List ℚ → List ℚ → List ℚ) (tparams : List ℚ)
    (input_dim : ℕ) (gamma : ℚ) (batch : List Transition) :
    Except DQNError (List ℚ) :=
  (forward net tparams input_dim (batch.map (·.next_state))).map fun next_q =>
    updateTargets gamma (batch.map (·.reward))
      (batch.map fun tr => if tr.done then (1 : ℚ) else 0) (next_q.map maxListQ)

/-- `DQNAgent.update_agent`: one learner step.  The optimizer's gradient
step (zero_grad / backward / step) is the opaque collaborator `gs`, a
function of the batch and of the current (parameters, optimizer state)
pair.  Note the source checks `total_steps % target_update_freq == 0`
before incrementing `total_steps`. -/
def updateAgent (net : List ℚ → List ℚ → List ℚ)
    (gs : List Transition → List ℚ × List ℚ → List ℚ × List ℚ)
    (st : AgentState) (batch : List Transition) :
    Except DQNError (AgentState × ℚ) :=
  match forward net st.q_params st.input_dim (batch.map (·.state)) with
  | Except.error e => Except.error e
  | Except.ok q_values =>
    match computeTargets net st.target_params st.input_dim st.gamma batch with
    | Except.error e => Except.error e
    | Except.ok target =>
      Except.ok
        ({ st with
            q_params := (gs batch (st.q_params, st.opt_state)).1
            opt_state := (gs batch (st.q_params, st.opt_state)).2
            target_params :=
              if st.total_steps % st.target_update_freq = 0
              then (gs batch (st.q_params, st.opt_state)).1
              else st.target_params
            total_steps := st.total_steps + 1 },
          mseLoss (gatherPred q_values (batch.map (·.action))) target)

/-- Iterating `update_agent` on a fixed batch, keeping only the agent. -/
def updateN (net : List ℚ → List ℚ → List ℚ)
    (gs : List Transition → List ℚ × List ℚ → List ℚ × List ℚ)
    (batch : List Transition) (st : AgentState) : ℕ → Except DQNError AgentState
  | 0 => Except.ok st
  | n + 1 =>
    (updateN net gs batch st n).bind fun s =>
      (updateAgent net gs s batch).map (·.1)

/-- Result of one `env.step` call. -/
structure EnvStep where
  next_state : List ℚ
  reward : ℚ
  done : Bool
  truncated : Bool

/-- The external collaborators driving `DQNAgent.train`: the approximator
family `net`, the optimizer's gradient step `gradStep`, the environment
streams (`envS` for `step`, `resetS` for `reset`, both indexed by use
count), the random draws consumed by action selection (`uS`, `aS`) and by
buffer sampling (`sampleS`), and the exploration hyperparameters. -/
structure Collab where
  net : List ℚ → List ℚ → List ℚ
  gradStep : List Transition → List ℚ × List ℚ → List ℚ × List ℚ
  envS : ℕ → EnvStep
  resetS : ℕ → List ℚ
  uS : ℕ → ℝ
  aS : ℕ → ℕ
  sampleS : ℕ → ℕ → ℕ
  eps_start : ℝ
  eps_final : ℝ
  eps_decay : ℝ

/-- The local state of the `train` loop next to the agent itself. -/
structure TrainState where
  agent : AgentState
  cur_state : List ℚ
  ep_reward : ℚ
  recent_rewards : List ℚ
  reset_count : ℕ

/-- Arithmetic mean of a list of rationals (`np.mean`). -/
def listMean (l : List ℚ) : ℚ := l.sum / l.length

/-- `recent_rewards[-eval_interval:]` averaged, or `0.0` when no episode has
completed yet. -/
def meanRecent (ei : ℕ) (recent : List ℚ) : ℚ :=
  if recent.isEmpty then 0 else listMean (recent.drop (recent.length - ei))

/-- The conditional learner phase of one loop iteration: sample and update
only when the buffer holds at least `batch_size` transitions. -/
def learnPhase (C : Collab) (frame : ℕ) (ts : TrainState) :
    Except DQNError TrainState :=
  if ts.agent.batch_size ≤ ts.agent.buffer.data.length then
    match ts.agent.buffer.sample ts.agent.batch_size (C.sampleS frame) with
    | Except.error err => Except.error err
    | Except.ok batch =>
      match updateAgent C.net C.gradStep ts.agent batch with
      | Except.error err => Except.error err
      | Except.ok p => Except.ok { ts with agent := p.1 }
  else Except.ok ts

/-- The episode-boundary phase: on `done or truncated`, reset the
environment, record the finished episode's total reward and clear the
accumulator. -/
def episodePhase (C : Collab) (finished : Bool) (ts : TrainState) : TrainState :=
  if finished then
    { ts with
        cur_state := C.resetS ts.reset_count
        reset_count := ts.reset_count + 1
        recent_rewards := ts.recent_rewards ++ [ts.ep_reward]
        ep_reward := 0 }
  else ts

/-- The reporting phase: every `eval_interval` frames (by absolute frame
counter) append the frame index and the mean of the most recent
`eval_interval` completed-episode rewards. -/
def logPhase (ei frame : ℕ) (ts : TrainState) : TrainState :=
  if frame % ei = 0 then
    { ts with
        agent :=
          { ts.agent with
              frame_history := ts.agent.frame_history ++ [frame]
              mean_reward_history :=
                ts.agent.mean_reward_history ++ [meanRecent ei ts.recent_rewards] } }
  else ts

/-- The interaction prefix of one loop iteration of `DQNAgent.train`:
select an action (`evaluate = false`), step the environment, store the
transition with terminal flag `done or truncated`, move to the next state
and accumulate the reward. -/
noncomputable def interactPhase (C : Collab) (frame : ℕ) (ts : TrainState) :
    TrainState :=
  { agent :=
      { ts.agent with
          buffer := ts.agent.buffer.add
            ⟨ts.cur_state,
              (predictAction C.net C.eps_start C.eps_final C.eps_decay ts.agent
                ts.cur_state false (C.uS frame) (C.aS frame)).1,
              (C.envS frame).reward, (C.envS frame).next_state,
              (C.envS frame).done || (C.envS frame).truncated⟩ }
    cur_state := (C.envS frame).next_state
    ep_reward := ts.ep_reward + (C.envS frame).reward
    recent_rewards := ts.recent_rewards
    reset_count := ts.reset_count }

/-- The body of one iteration of the `for frame in range(1, num_frames + 1)`
loop of `DQNAgent.train`: interaction, then the learner, episode and
reporting phases in source order. -/
noncomputable def trainStep (C : Collab) (ei frame : ℕ) (ts : TrainState) :
    Except DQNError TrainState :=
  (learnPhase C frame (interactPhase C frame ts)).map fun ts2 =>
    logPhase ei frame
      (episodePhase C ((C.envS frame).done || (C.envS frame).truncated) ts2)

/-- Running the loop body for `k` successive frames starting at `frame`. -/
noncomputable def trainGo (C : Collab) (ei : ℕ) :
    ℕ → ℕ → TrainState → Except DQNError TrainState
  | _, 0, ts => Except.ok ts
  | frame, k + 1, ts => (trainStep C ei frame ts).bind (trainGo C ei (frame + 1) k)

/-- `DQNAgent.train`: reset once, then run `num_frames` loop iterations with
the frame counter starting at `1`. -/
noncomputable def train (C : Collab) (ag : AgentState) (num_frames ei : ℕ) :
    Except DQNError TrainState :=
  trainGo C ei 1 num_frames ⟨ag, C.resetS 0, 0, [], 1⟩

/-- The frames at which the reporting phase fires during `k` iterations
starting at `frame`: the multiples of `eval_interval`. -/
def logFrames (ei frame k : ℕ) : List ℕ :=
  ((List.range k).map (frame + ·)).filter (fun m => m % ei = 0)

/-- The dimension discipline maintained by the training loop: the agent
expects inputs of size `D`, the current observation has size `D`, and every
transition in the buffer has states of size `D`. -/
def DimsOk (D : ℕ) (ts : TrainState) : Prop :=
  ts.agent.input_dim = D ∧ ts.cur_state.length = D ∧
    ∀ tr ∈ ts.agent.buffer.data, tr.state.length = D ∧ tr.next_state.length = D

/-- A concrete instantiation of the collaborators, used to exercise the
loop theorems on explicit inputs: a constant one-dimensional environment
and an identity gradient step. -/
noncomputable def trivialCollab : Collab :=
  { net := fun _ _ => [0]
    gradStep := fun _ p => p
    envS := fun _ => ⟨[0], 0, false, false⟩
    resetS := fun _ => [0]
    uS := fun _ => 0
    aS := fun _ => 0
    sampleS := fun _ _ => 0
    eps_start := 1
    eps_final := 0
    eps_decay := 1 }

/-! ### Properties of greedy action selection -/

lemma argmaxIdx_lt_length (l : List ℚ) (h : l ≠ []) : argmaxIdx l < l.length := by
  induction l with
  | nil => exact absurd rfl h
  | cons x xs ih =>
    rw [argmaxIdx]
    split
    · simp
    · rename_i hlt
      have hxs : xs ≠ [] := by
        intro hnil
        subst hnil
        exact hlt (le_refl x)
      simpa using Nat.succ_lt_succ (ih hxs)

lemma argmaxIdx_getD_default (l : List ℚ) (h : l ≠ []) (d d' : ℚ) :
    l.getD (argmaxIdx l) d = l.getD (argmaxIdx l) d' := by
  rw [List.getD_eq_getElem l d (argmaxIdx_lt_length l h),
    List.getD_eq_getElem l d' (argmaxIdx_lt_length l h)]

lemma argmaxIdx_max (l : List ℚ) : ∀ j < l.length, l.getD j 0 ≤ l.getD (argmaxIdx l) 0 := by
  induction l with
  | nil => intro j hj; simp at hj
  | cons x xs ih =>
    intro j hj
    rw [argmaxIdx]
    split
    · rename_i hle
      match j with
      | 0 => simp
      | k + 1 =>
        have hk : k < xs.length := by simpa using hj
        have hxs : xs ≠ [] := by
          intro hnil; subst hnil; simp at hk
        have h1 : xs.getD k 0 ≤ xs.getD (argmaxIdx xs) 0 := ih k hk
        have h2 : xs.getD (argmaxIdx xs) 0 ≤ x := by
          rw [argmaxIdx_getD_default xs hxs 0 x]; exact hle
        simpa using le_trans h1 h2
    · rename_i hlt
      have hxs : xs ≠ [] := by
        intro hnil; subst hnil; exact hlt (le_refl x)
      have hx : x < xs.getD (argmaxIdx xs) 0 := by
        rw [argmaxIdx_getD_default xs hxs 0 x]; exact lt_of_not_le hlt
      match j with
      | 0 => simpa using le_of_lt hx
      | k + 1 =>
        have hk : k < xs.length := by simpa using hj
        simpa using ih k hk

lemma argmaxIdx_first (l : List ℚ) :
    ∀ j < argmaxIdx l, l.getD j 0 < l.getD (argmaxIdx l) 0 := by
  induction l with
  | nil => intro j hj; simp [argmaxIdx] at hj
  | cons x xs ih =>
    intro j hj
    rw [argmaxIdx] at hj ⊢
    split
    · rename_i hle
      rw [if_pos hle] at hj
      simp at hj
    · rename_i hlt
      rw [if_neg hlt] at hj
      have hxs : xs ≠ [] := by
        intro hnil; subst hnil; exact hlt (le_refl x)
      have hx : x < xs.getD (argmaxIdx xs) 0 := by
        rw [argmaxIdx_getD_default xs hxs 0 x]; exact lt_of_not_le hlt
      match j with
      | 0 => simpa using hx
      | k + 1 =>
        have hk : k < argmaxIdx xs := by omega
        simpa using ih k hk

/-- C5: greedy action selection is deterministic: with `evaluate = true`,
`predict_action` ignores the random draws and the exploration
hyperparameters entirely, so two calls with unchanged online parameters
return the same action; that action is an index into the per-action value
estimates achieving the maximum, with ties broken by the lowest index. -/
theorem predict_greedy_deterministic
    (net : List ℚ → List ℚ → List ℚ) (es1 ef1 ed1 es2 ef2 ed2 : ℝ)
    (st : AgentState) (s : List ℚ) (u1 u2 : ℝ) (r1 r2 : ℕ)
    (h : net st.q_params s ≠ []) :
    (predictAction net es1 ef1 ed1 st s true u1 r1).1
        = (predictAction net es2 ef2 ed2 st s true u2 r2).1
    ∧ (predictAction net es1 ef1 ed1 st s true u1 r1).1 < (net st.q_params s).length
    ∧ (∀ j < (net st.q_params s).length,
        (net st.q_params s).getD j 0
          ≤ (net st.q_params s).getD ((predictAction net es1 ef1 ed1 st s true u1 r1).1) 0)
    ∧ ∀ j < (predictAction net es1 ef1 ed1 st s true u1 r1).1,
        (net st.q_params s).getD j 0
          < (net st.q_params s).getD ((predictAction net es1 ef1 ed1 st s true u1 r1).1) 0 := by
  have hp : ∀ (es ef ed u : ℝ) (r : ℕ),
      (predictAction net es ef ed st s true u r).1 = argmaxIdx (net st.q_params s) := by
    intro es ef ed u r
    simp [predictAction]
  simp only [hp]
  exact ⟨trivial, argmaxIdx_lt_length _ h, argmaxIdx_max _, argmaxIdx_first _⟩

/-- Witness for C5 at a concrete input with a tie between indices 1 and 2:
the greedy action is independent of the draws and hyperparameters. -/
theorem predict_greedy_deterministic_witness :
    (predictAction (fun _ _ => [1, 3, 3]) 1 0 1 (freshAgent [] [] 1 1 1 1 0 3) [] true 0 0).1
      = (predictAction (fun _ _ => [1, 3, 3]) 2 0 3 (freshAgent [] [] 1 1 1 1 0 3) [] true 5 7).1 :=
  (predict_greedy_deterministic (fun _ _ => [1, 3, 3]) 1 0 1 2 0 3
    (freshAgent [] [] 1 1 1 1 0 3) [] 0 5 0 7 (by decide)).1

/-- C9: `predict_action` mutates no shared agent state: for every state and
every value of `evaluate`, the agent state it hands back — replay buffer,
online and target parameters, optimizer state, `total_steps` and history
lists included — is exactly the input state; the approximator is applied
as a pure function (no gradient bookkeeping exists in the selection path). -/
theorem predictAction_pure (net : List ℚ → List ℚ → List ℚ)
    (es ef ed : ℝ) (st : AgentState) (s : List ℚ) (evaluate : Bool)
    (u : ℝ) (ra : ℕ) :
    (predictAction net es ef ed st s evaluate u ra).2 = st := by
  unfold predictAction
  split
  · rfl
  · split <;> rfl

/-! ### The exploration schedule -/

/-- C3: the exploration schedule is the stated pure function of the step
counter; it starts at `eps_start`, stays within `[eps_final, eps_start]`
for every step count, and is strictly decreasing. -/
theorem epsilon_schedule (es ef ed : ℝ) (h1 : ef < es) (h2 : 0 < ed) :
    epsilon es ef ed 0 = es
    ∧ (∀ t : ℕ, ef ≤ epsilon es ef ed t ∧ epsilon es ef ed t ≤ es)
    ∧ ∀ s t : ℕ, s < t → epsilon es ef ed t < epsilon es ef ed s := by
  refine ⟨?_, ?_, ?_⟩
  · unfold epsilon
    rw [Nat.cast_zero, neg_zero, zero_div, Real.exp_zero]
    ring
  · intro t
    have hpos : (0 : ℝ) < Real.exp (-(t : ℝ) / ed) := Real.exp_pos _
    have hone : Real.exp (-(t : ℝ) / ed) ≤ 1 := by
      apply Real.exp_le_one_iff.mpr
      rw [neg_div]
      have ht : (0 : ℝ) ≤ (t : ℝ) := Nat.cast_nonneg t
      have := div_nonneg ht (le_of_lt h2)
      linarith
    have hd : (0 : ℝ) < es - ef := sub_pos.mpr h1
    constructor
    · unfold epsilon
      nlinarith
    · unfold epsilon
      nlinarith
  · intro s t hst
    have hcast : (s : ℝ) < (t : ℝ) := by exact_mod_cast hst
    have hexp : Real.exp (-(t : ℝ) / ed) < Real.exp (-(s : ℝ) / ed) := by
      apply Real.exp_lt_exp.mpr
      rw [div_lt_div_iff₀ h2 h2]
      nlinarith
    have hd : (0 : ℝ) < es - ef := sub_pos.mpr h1
    unfold epsilon
    nlinarith

/-- Witness for C3 at `eps_start = 1`, `eps_final = 1/100`,
`eps_decay = 500`: the hypotheses hold and `epsilon` starts at `1`. -/
theorem epsilon_schedule_witness :
    ((1 : ℝ) / 100 < 1) ∧ ((0 : ℝ) < 500) ∧ epsilon 1 (1 / 100) 500 0 = 1 :=
  ⟨by norm_num, by norm_num,
    (epsilon_schedule 1 (1 / 100) 500 (by norm_num) (by norm_num)).1⟩

/-! ### Persistence -/

/-- C6: the save/load round trip: `load` applied to the artifact produced by
`save` on agent `a`, into any agent `b` of identical architecture, restores
exactly `a`'s online parameters and optimizer state, overwriting `b`'s, and
touches nothing else of `b` (in particular not its target parameters). -/
theorem save_load_roundtrip (a b : AgentState)
    (h : (save a).parameters.length = b.q_params.length) :
    load b (save a) = Except.ok
      { b with q_params := a.q_params, opt_state := a.opt_state } := by
  rw [load, if_pos h]
  rfl

/-- Witness for C6 at concrete agents with one-dimensional parameters. -/
theorem save_load_roundtrip_witness :
    (save (freshAgent [7] [8] 1 1 1 1 1 1)).parameters.length
        = (freshAgent [5] [6] 1 1 1 1 1 1).q_params.length
    ∧ load (freshAgent [5] [6] 1 1 1 1 1 1) (save (freshAgent [7] [8] 1 1 1 1 1 1))
        = Except.ok { freshAgent [5] [6] 1 1 1 1 1 1 with
            q_params := (freshAgent [7] [8] 1 1 1 1 1 1).q_params
            opt_state := (freshAgent [7] [8] 1 1 1 1 1 1).opt_state } :=
  ⟨by decide,
    save_load_roundtrip (freshAgent [7] [8] 1 1 1 1 1 1)
      (freshAgent [5] [6] 1 1 1 1 1 1) (by decide)⟩

/-! ### The TD target -/

lemma updateTargets_map (γ : ℚ) (batch : List Transition) (f : Transition → ℚ) :
    updateTargets γ (batch.map (·.reward))
        (batch.map fun tr => if tr.done then (1 : ℚ) else 0) (batch.map f)
      = batch.map fun tr => tdTarget γ tr.reward tr.done (f tr) := by
  induction batch with
  | nil => rfl
  | cons tr rest ih =>
    simp only [List.map_cons, updateTargets, List.zip_cons_cons, List.zipWith_cons_cons]
      at ih ⊢
    rw [ih]
    rfl

lemma forward_ok (net : List ℚ → List ℚ → List ℚ) (params : List ℚ) (D : ℕ)
    (batch : List Transition) (f : Transition → List ℚ)
    (hdim : ∀ tr ∈ batch, (f tr).length = D) :
    forward net params D (batch.map f) = Except.ok ((batch.map f).map (net params)) := by
  rw [forward, if_pos]
  intro s hs
  obtain ⟨tr, htr, rfl⟩ := List.mem_map.mp hs
  exact hdim tr htr

lemma computeTargets_ok (net : List ℚ → List ℚ → List ℚ) (tp : List ℚ)
    (D : ℕ) (γ : ℚ) (batch : List Transition)
    (hdim : ∀ tr ∈ batch, tr.next_state.length = D) :
    computeTargets net tp D γ batch = Except.ok
      (batch.map fun tr => tdTarget γ tr.reward tr.done (maxListQ (net tp tr.next_state))) := by
  rw [computeTargets, forward_ok net tp D batch _ hdim]
  show Except.ok _ = _
  simp only [List.map_map, Function.comp_def]
  exact congrArg Except.ok
    (updateTargets_map γ batch fun tr => maxListQ (net tp tr.next_state))

/-- C2: the regression targets computed by `update_agent` (lines 248-250)
are exactly `reward_i + (1 - done_i) * gamma * max_next_value_i` per
sample, where `max_next_value_i` is the target approximator's maximal value
estimate on `next_state_i`; consequently, for a batch in which every done
flag is true, the target equals the reward exactly for every sample. -/
theorem td_target_formula (net : List ℚ → List ℚ → List ℚ) (tp : List ℚ)
    (D : ℕ) (γ : ℚ) (batch : List Transition)
    (hdim : ∀ tr ∈ batch, tr.next_state.length = D) :
    computeTargets net tp D γ batch = Except.ok
        (batch.map fun tr => tdTarget γ tr.reward tr.done (maxListQ (net tp tr.next_state)))
    ∧ ((∀ tr ∈ batch, tr.done = true) →
        computeTargets net tp D γ batch = Except.ok (batch.map fun tr => tr.reward)) := by
  have hmain := computeTargets_ok net tp D γ batch hdim
  refine ⟨hmain, fun hdone => ?_⟩
  rw [hmain]
  congr 1
  apply List.map_congr_left
  intro tr htr
  simp [tdTarget, hdone tr htr]

/-- Witness for C2 at a one-element batch whose transition is terminal:
the computed target equals the reward. -/
theorem td_target_formula_witness :
    computeTargets (fun _ _ => [9]) [] 1 1 [⟨[5], 0, 3, [7], true⟩]
      = Except.ok ([(⟨[5], 0, 3, [7], true⟩ : Transition)].map fun tr => tr.reward) :=
  (td_target_formula (fun _ _ => [9]) [] 1 1 [⟨[5], 0, 3, [7], true⟩]
    (by decide)).2 (by decide)

/-! ### The learner step -/

lemma updateAgent_ok (net : List ℚ → List ℚ → List ℚ)
    (gs : List Transition → List ℚ × List ℚ → List ℚ × List ℚ)
    (st : AgentState) (batch : List Transition)
    (h : ∀ tr ∈ batch,
      tr.state.length = st.input_dim ∧ tr.next_state.length = st.input_dim) :
    updateAgent net gs st batch = Except.ok
      ({ st with
          q_params := (gs batch (st.q_params, st.opt_state)).1
          opt_state := (gs batch (st.q_params, st.opt_state)).2
          target_params :=
            if st.total_steps % st.target_update_freq = 0
            then (gs batch (st.q_params, st.opt_state)).1
            else st.target_params
          total_steps := st.total_steps + 1 },
        mseLoss
          (gatherPred ((batch.map (·.state)).map (net st.q_params))
            (batch.map (·.action)))
          (batch.map fun tr => tdTarget st.gamma tr.reward tr.done
            (maxListQ (net st.target_params tr.next_state)))) := by
  have h1 := forward_ok net st.q_params st.input_dim batch (·.state)
    (fun tr htr => (h tr htr).1)
  have h2 := computeTargets_ok net st.target_params st.input_dim st.gamma batch
    (fun tr htr => (h tr htr).2)
  rw [updateAgent, h1, h2]

lemma forward_error (net : List ℚ → List ℚ → List ℚ) (params : List ℚ)
    (D : ℕ) (states : List (List ℚ)) (e : DQNError)
    (h : forward net params D states = Except.error e) :
    e = DQNError.shapeMismatchError := by
  rw [forward] at h
  split at h
  · simp at h
  · injection h with h2
    exact h2.symm

lemma computeTargets_error (net : List ℚ → List ℚ → List ℚ) (tp : List ℚ)
    (D : ℕ) (γ : ℚ) (batch : List Transition) (e : DQNError)
    (h : computeTargets net tp D γ batch = Except.error e) :
    e = DQNError.shapeMismatchError := by
  rw [computeTargets] at h
  cases hf : forward net tp D (batch.map (·.next_state)) with
  | ok v => rw [hf] at h; simp [Except.map] at h
  | error e2 =>
    rw [hf] at h
    have h3 : e2 = e := by simpa [Except.map] using h
    exact h3 ▸ forward_error net tp D _ e2 hf

lemma updateAgent_error_eq (net : List ℚ → List ℚ → List ℚ)
    (gs : List Transition → List ℚ × List ℚ → List ℚ × List ℚ)
    (st : AgentState) (batch : List Transition) (e : DQNError)
    (h : updateAgent net gs st batch = Except.error e) :
    e = DQNError.shapeMismatchError := by
  rw [updateAgent] at h
  split at h
  · rename_i e1 heq
    injection h with h2
    exact h2 ▸ forward_error net st.q_params st.input_dim _ e1 heq
  · rename_i qv heq
    split at h
    · rename_i e2 heq2
      injection h with h2
      exact h2 ▸ computeTargets_error net st.target_params st.input_dim st.gamma batch e2 heq2
    · simp at h

/-- C7: `update_agent` fails with `ShapeMismatchError` exactly when some
transition of the batch carries a state (or next state) whose
dimensionality disagrees with the approximator's expected input size, and
this is the only recoverable error the learner step produces. -/
theorem update_shape_error (net : List ℚ → List ℚ → List ℚ)
    (gs : List Transition → List ℚ × List ℚ → List ℚ × List ℚ)
    (st : AgentState) (batch : List Transition) :
    ((∃ tr ∈ batch,
        tr.state.length ≠ st.input_dim ∨ tr.next_state.length ≠ st.input_dim)
      ↔ updateAgent net gs st batch = Except.error DQNError.shapeMismatchError)
    ∧ ∀ e, updateAgent net gs st batch = Except.error e
        → e = DQNError.shapeMismatchError := by
  refine ⟨⟨?_, ?_⟩, fun e => updateAgent_error_eq net gs st batch e⟩
  · rintro ⟨tr, htr, hbad⟩
    by_cases hs : ∀ s ∈ batch.map (·.state), s.length = st.input_dim
    · have hnext : ¬ ∀ s ∈ batch.map (·.next_state), s.length = st.input_dim := by
        intro hall
        cases hbad with
        | inl hb => exact hb (hs _ (List.mem_map_of_mem _ htr))
        | inr hb => exact hb (hall _ (List.mem_map_of_mem _ htr))
      have h1 : forward net st.q_params st.input_dim (batch.map (·.state))
          = Except.ok ((batch.map (·.state)).map (net st.q_params)) := by
        rw [forward, if_pos hs]
      have h2 : computeTargets net st.target_params st.input_dim st.gamma batch
          = Except.error DQNError.shapeMismatchError := by
        rw [computeTargets, forward, if_neg hnext]
        rfl
      rw [updateAgent, h1, h2]
    · have h1 : forward net st.q_params st.input_dim (batch.map (·.state))
          = Except.error DQNError.shapeMismatchError := by
        rw [forward, if_neg hs]
      rw [updateAgent, h1]
  · intro herr
    by_contra hno
    push_neg at hno
    rw [updateAgent_ok net gs st batch hno] at herr
    simp at herr

/-- Witness for C7: a batch whose only transition has a 2-dimensional state
while the approximator expects 1-dimensional inputs makes `update_agent`
fail with `ShapeMismatchError`. -/
theorem update_shape_error_witness :
    updateAgent (fun _ _ => [0]) (fun _ p => p) (freshAgent [0] [] 1 1 1 1 1 1)
      [⟨[1, 2], 0, 0, [3], false⟩] = Except.error DQNError.shapeMismatchError :=
  (update_shape_error (fun _ _ => [0]) (fun _ p => p) (freshAgent [0] [] 1 1 1 1 1 1)
    [⟨[1, 2], 0, 0, [3], false⟩]).1.mp (by decide)

/-! ### Target synchronization -/

/-- C1 counterexample: the claim that after exactly `target_update_freq`
calls to `update_agent` on a fresh agent the target parameters equal the
online parameters is false.  With `target_update_freq = 2` and a gradient
step that changes the online parameters at every call, after exactly 2
updates the target parameters are `[1]` (the online parameters as they
were after the first update, where the source synced because the
pre-increment `total_steps` was `0`) while the online parameters are
`[2]`. -/
theorem target_sync_after_freq_ce :
    ((updateN (fun _ _ => [0]) (fun _ p => (p.1 ++ [0], p.2))
          [⟨[0], 0, 0, [0], false⟩] (freshAgent [0] [] 1 1 1 2 1 1) 2).toOption.map
        fun s => (s.target_params, s.q_params))
      = some ([0, 0], [0, 0, 0])
    ∧ ([(0 : ℚ), 0] : List ℚ) ≠ [(0 : ℚ), 0, 0] := by
  exact ⟨by decide, by decide⟩

/-- C1 amended: in `update_agent` the synchronization check runs before the
increment: the hard copy happens when the pre-increment `total_steps` is a
multiple of `target_update_freq`, so the target network is overwritten with
the (freshly optimized) online parameters on calls `1`, `freq + 1`,
`2 * freq + 1`, …; between those syncs the target parameters remain
unchanged even as the online parameters change.  Concretely, after `n ≥ 1`
calls from a fresh agent the target parameters equal the online parameters
as they were after call `(n - 1) / freq * freq + 1` — for `n = freq` that
is call 1, not call `n`. -/
theorem target_sync_schedule (net : List ℚ → List ℚ → List ℚ)
    (gs : List Transition → List ℚ × List ℚ → List ℚ × List ℚ)
    (batch : List Transition) (q0 o0 : List ℚ) (cap bs : ℕ) (γ : ℚ)
    (freq D nA : ℕ) (hfreq : 0 < freq)
    (hdim : ∀ tr ∈ batch, tr.state.length = D ∧ tr.next_state.length = D) :
    ∀ n : ℕ, ∃ stn : AgentState,
      updateN net gs batch (freshAgent q0 o0 cap bs γ freq D nA) n = Except.ok stn
      ∧ stn.input_dim = D
      ∧ stn.target_update_freq = freq
      ∧ stn.total_steps = n
      ∧ (stn.q_params, stn.opt_state) = (fun p => gs batch p)^[n] (q0, o0)
      ∧ stn.target_params =
          (if n = 0 then q0
           else ((fun p => gs batch p)^[(n - 1) / freq * freq + 1] (q0, o0)).1) := by
  intro n
  induction n with
  | zero => exact ⟨freshAgent q0 o0 cap bs γ freq D nA, rfl, rfl, rfl, rfl, rfl, rfl⟩
  | succ n ih =>
    obtain ⟨stn, hrun, hD, hfq, hsteps, hqo, htp⟩ := ih
    have hdim' : ∀ tr ∈ batch,
        tr.state.length = stn.input_dim ∧ tr.next_state.length = stn.input_dim := by
      rw [hD]; exact hdim
    have hupd := updateAgent_ok net gs stn batch hdim'
    refine ⟨{ stn with
        q_params := (gs batch (stn.q_params, stn.opt_state)).1
        opt_state := (gs batch (stn.q_params, stn.opt_state)).2
        target_params :=
          if stn.total_steps % stn.target_update_freq = 0
          then (gs batch (stn.q_params, stn.opt_state)).1
          else stn.target_params
        total_steps := stn.total_steps + 1 }, ?_, hD, hfq, ?_, ?_, ?_⟩
    · rw [updateN, hrun]
      show (updateAgent net gs stn batch).map (·.1) = _
      rw [hupd]
      rfl
    · show stn.total_steps + 1 = n + 1
      rw [hsteps]
    · show (_, _) = (fun p => gs batch p)^[n + 1] (q0, o0)
      rw [Prod.mk.eta, Function.iterate_succ_apply', ← hqo]
    · show (if stn.total_steps % stn.target_update_freq = 0
          then (gs batch (stn.q_params, stn.opt_state)).1 else stn.target_params) = _
      rw [hsteps, hfq]
      by_cases hmod : n % freq = 0
      · rw [if_pos hmod, if_neg (Nat.succ_ne_zero n)]
        have hdvd : freq ∣ n := Nat.dvd_of_mod_eq_zero hmod
        have hcancel : n / freq * freq = n := Nat.div_mul_cancel hdvd
        rw [show n + 1 - 1 = n from rfl, hcancel, Function.iterate_succ_apply', ← hqo]
      · rw [if_neg hmod, htp]
        have hn0 : n ≠ 0 := by
          intro h0
          subst h0
          exact hmod (Nat.zero_mod freq)
        have hne : n - 1 + 1 = n := Nat.succ_pred_eq_of_pos (Nat.pos_of_ne_zero hn0)
        have hdvd : ¬ freq ∣ n := fun hd => hmod (Nat.mod_eq_zero_of_dvd hd)
        have hdiv : (n + 1 - 1) / freq = (n - 1) / freq := by
          show n / freq = (n - 1) / freq
          conv_lhs => rw [← hne]
          exact Nat.succ_div_of_not_dvd (by rw [hne]; exact hdvd)
        rw [if_neg hn0, if_neg (Nat.succ_ne_zero n), hdiv]

/-! ### The training loop -/

lemma sample_error_iff (b : ReplayBuffer) (n : ℕ) (draws : ℕ → ℕ) :
    b.sample n draws = Except.error DQNError.insufficientDataError
      ↔ b.data.length < n := by
  rw [ReplayBuffer.sample]
  split
  · rename_i h; simp [h]
  · rename_i h; simp [h]

lemma sample_ok_of_le (b : ReplayBuffer) (n : ℕ) (draws : ℕ → ℕ)
    (h : n ≤ b.data.length) :
    ∃ l, b.sample n draws = Except.ok l ∧ ∀ tr ∈ l, tr ∈ b.data := by
  rw [ReplayBuffer.sample, if_neg (Nat.not_lt.mpr h)]
  refine ⟨_, rfl, ?_⟩
  intro tr htr
  obtain ⟨i, hi, rfl⟩ := List.mem_map.mp htr
  have hiN : i < n := List.mem_range.mp hi
  have hpos : 0 < b.data.length := lt_of_le_of_lt (Nat.zero_le i) (lt_of_lt_of_le hiN h)
  have hlt : draws i % b.data.length < b.data.length := Nat.mod_lt _ hpos
  rw [List.getD_eq_getElem b.data default hlt]
  exact List.getElem_mem hlt

lemma add_dims (b : ReplayBuffer) (tr : Transition) (D : ℕ)
    (hb : ∀ t ∈ b.data, t.state.length = D ∧ t.next_state.length = D)
    (h1 : tr.state.length = D) (h2 : tr.next_state.length = D) :
    ∀ t ∈ (b.add tr).data, t.state.length = D ∧ t.next_state.length = D := by
  intro t ht
  rw [ReplayBuffer.add] at ht
  split at ht
  · rcases List.mem_append.mp ht with h | h
    · exact hb t h
    · rw [List.mem_singleton.mp h]; exact ⟨h1, h2⟩
  · rcases List.mem_append.mp ht with h | h
    · exact hb t (List.mem_of_mem_tail h)
    · rw [List.mem_singleton.mp h]; exact ⟨h1, h2⟩

lemma updateAgent_ok_fields (net : List ℚ → List ℚ → List ℚ)
    (gs : List Transition → List ℚ × List ℚ → List ℚ × List ℚ)
    (st : AgentState) (batch : List Transition) (p : AgentState × ℚ)
    (h : updateAgent net gs st batch = Except.ok p) :
    p.1.buffer = st.buffer
    ∧ p.1.frame_history = st.frame_history
    ∧ p.1.mean_reward_history = st.mean_reward_history
    ∧ p.1.input_dim = st.input_dim
    ∧ p.1.batch_size = st.batch_size := by
  rw [updateAgent] at h
  split at h
  · simp at h
  · split at h
    · simp at h
    · injection h with h2
      subst h2
      exact ⟨rfl, rfl, rfl, rfl, rfl⟩

lemma learnPhase_ok_fields (C : Collab) (frame : ℕ) (ts ts2 : TrainState)
    (h : learnPhase C frame ts = Except.ok ts2) :
    ts2.agent.buffer = ts.agent.buffer
    ∧ ts2.agent.frame_history = ts.agent.frame_history
    ∧ ts2.agent.mean_reward_history = ts.agent.mean_reward_history
    ∧ ts2.agent.input_dim = ts.agent.input_dim
    ∧ ts2.cur_state = ts.cur_state
    ∧ ts2.recent_rewards = ts.recent_rewards
    ∧ ts2.ep_reward = ts.ep_reward
    ∧ ts2.reset_count = ts.reset_count := by
  rw [learnPhase] at h
  split at h
  · split at h
    · simp at h
    · split at h
      · simp at h
      · rename_i p hu
        injection h with h2
        subst h2
        obtain ⟨hb, hf, hm, hi, _⟩ := updateAgent_ok_fields C.net C.gradStep ts.agent _ p hu
        exact ⟨hb, hf, hm, hi, rfl, rfl, rfl, rfl⟩
  · injection h with h2
    subst h2
    exact ⟨rfl, rfl, rfl, rfl, rfl, rfl, rfl, rfl⟩

lemma learnPhase_ok_of_dims (C : Collab) (frame D : ℕ) (ts : TrainState)
    (hD : ts.agent.input_dim = D)
    (hbuf : ∀ tr ∈ ts.agent.buffer.data,
      tr.state.length = D ∧ tr.next_state.length = D) :
    ∃ ts2, learnPhase C frame ts = Except.ok ts2 := by
  rw [learnPhase]
  split
  · rename_i hbs
    obtain ⟨l, hs, hmem⟩ :=
      sample_ok_of_le ts.agent.buffer ts.agent.batch_size (C.sampleS frame) hbs
    have hdim : ∀ tr ∈ l,
        tr.state.length = ts.agent.input_dim
          ∧ tr.next_state.length = ts.agent.input_dim := by
      intro tr htr
      rw [hD]
      exact hbuf tr (hmem tr htr)
    have hupd := updateAgent_ok C.net C.gradStep ts.agent l hdim
    simp only [hs, hupd]
    exact ⟨_, rfl⟩
  · exact ⟨ts, rfl⟩

lemma learnPhase_not_insufficient (C : Collab) (frame : ℕ) (ts : TrainState) :
    learnPhase C frame ts ≠ Except.error DQNError.insufficientDataError := by
  rw [learnPhase]
  split
  · rename_i hbs
    cases hs : ts.agent.buffer.sample ts.agent.batch_size (C.sampleS frame) with
    | error e =>
      exfalso
      rw [ReplayBuffer.sample, if_neg (Nat.not_lt.mpr hbs)] at hs
      exact absurd hs (by simp)
    | ok batch =>
      cases hu : updateAgent C.net C.gradStep ts.agent batch with
      | error e =>
        intro hcontra
        have h3 := updateAgent_error_eq C.net C.gradStep ts.agent batch e hu
        simp only [hu] at hcontra
        injection hcontra with h2
        rw [h3] at h2
        exact DQNError.noConfusion h2
      | ok p =>
        simp only [hu]
        simp
  · simp

lemma episodePhase_agent (C : Collab) (f : Bool) (ts : TrainState) :
    (episodePhase C f ts).agent = ts.agent := by
  rw [episodePhase]; split <;> rfl

lemma episodePhase_cur_state_length (C : Collab) (D : ℕ) (f : Bool)
    (ts : TrainState) (hr : ∀ n, (C.resetS n).length = D)
    (hts : ts.cur_state.length = D) :
    (episodePhase C f ts).cur_state.length = D := by
  rw [episodePhase]
  split
  · exact hr _
  · exact hts

lemma logPhase_buffer (ei frame : ℕ) (ts : TrainState) :
    (logPhase ei frame ts).agent.buffer = ts.agent.buffer := by
  rw [logPhase]; split <;> rfl

lemma logPhase_input_dim (ei frame : ℕ) (ts : TrainState) :
    (logPhase ei frame ts).agent.input_dim = ts.agent.input_dim := by
  rw [logPhase]; split <;> rfl

lemma logPhase_cur_state (ei frame : ℕ) (ts : TrainState) :
    (logPhase ei frame ts).cur_state = ts.cur_state := by
  rw [logPhase]; split <;> rfl

lemma logPhase_frame_history (ei frame : ℕ) (ts : TrainState) :
    (logPhase ei frame ts).agent.frame_history
      = ts.agent.frame_history ++ (if frame % ei = 0 then [frame] else []) := by
  rw [logPhase]
  by_cases h : frame % ei = 0
  · rw [if_pos h, if_pos h]
  · rw [if_neg h, if_neg h, List.append_nil]

lemma logPhase_mean_history_length (ei frame : ℕ) (ts : TrainState) :
    (logPhase ei frame ts).agent.mean_reward_history.length
      = ts.agent.mean_reward_history.length + (if frame % ei = 0 then 1 else 0) := by
  rw [logPhase]
  by_cases h : frame % ei = 0
  · rw [if_pos h, if_pos h]
    simp
  · rw [if_neg h, if_neg h]
    simp

lemma interactPhase_dims (C : Collab) (frame D : ℕ) (ts : TrainState)
    (he : ∀ n, (C.envS n).next_state.length = D) (hInv : DimsOk D ts) :
    DimsOk D (interactPhase C frame ts) := by
  obtain ⟨hD, hcur, hbuf⟩ := hInv
  exact ⟨hD, he frame, add_dims ts.agent.buffer _ D hbuf hcur (he frame)⟩

lemma trainStep_ok (C : Collab) (D ei frame : ℕ) (ts : TrainState)
    (hr : ∀ n, (C.resetS n).length = D) (he : ∀ n, (C.envS n).next_state.length = D)
    (hInv : DimsOk D ts) :
    ∃ ts3, trainStep C ei frame ts = Except.ok ts3 ∧ DimsOk D ts3
      ∧ ts3.agent.frame_history
          = ts.agent.frame_history ++ (if frame % ei = 0 then [frame] else [])
      ∧ ts3.agent.mean_reward_history.length
          = ts.agent.mean_reward_history.length + (if frame % ei = 0 then 1 else 0) := by
  have hInv1 := interactPhase_dims C frame D ts he hInv
  obtain ⟨hD1, hcur1, hbuf1⟩ := hInv1
  obtain ⟨ts2, hlp⟩ :=
    learnPhase_ok_of_dims C frame D (interactPhase C frame ts) hD1 hbuf1
  obtain ⟨hb2, hf2, hm2, hi2, hc2, hrr2, _, _⟩ :=
    learnPhase_ok_fields C frame (interactPhase C frame ts) ts2 hlp
  refine ⟨logPhase ei frame
    (episodePhase C ((C.envS frame).done || (C.envS frame).truncated) ts2), ?_, ?_, ?_, ?_⟩
  · rw [trainStep, hlp]
    rfl
  · refine ⟨?_, ?_, ?_⟩
    · rw [logPhase_input_dim, episodePhase_agent, hi2, hD1]
    · rw [logPhase_cur_state]
      apply episodePhase_cur_state_length C D _ ts2 hr
      rw [hc2]
      exact hcur1
    · intro tr htr
      rw [logPhase_buffer, episodePhase_agent, hb2] at htr
      exact hbuf1 tr htr
  · rw [logPhase_frame_history, episodePhase_agent, hf2]
    rfl
  · rw [logPhase_mean_history_length, episodePhase_agent, hm2]
    rfl

lemma trainStep_error (C : Collab) (ei frame : ℕ) (ts : TrainState) (e : DQNError)
    (h : trainStep C ei frame ts = Except.error e) :
    e ≠ DQNError.insufficientDataError := by
  rw [trainStep] at h
  cases hl : learnPhase C frame (interactPhase C frame ts) with
  | error e2 =>
    rw [hl] at h
    have he2 : e2 = e := by simpa [Except.map] using h
    subst he2
    exact fun hcontra => learnPhase_not_insufficient C frame _ (hcontra ▸ hl)
  | ok ts2 =>
    rw [hl] at h
    simp [Except.map] at h

lemma logFrames_succ (ei frame k : ℕ) :
    logFrames ei frame (k + 1)
      = (if frame % ei = 0 then [frame] else []) ++ logFrames ei (frame + 1) k := by
  rw [logFrames, logFrames, List.range_succ_eq_map, List.map_cons, List.map_map,
    List.filter_cons]
  have hmap : (List.range k).map ((frame + ·) ∘ Nat.succ)
      = (List.range k).map (frame + 1 + ·) := by
    apply List.map_congr_left
    intro i _
    show frame + (i + 1) = frame + 1 + i
    omega
  rw [hmap, Nat.add_zero]
  by_cases h : frame % ei = 0
  · rw [if_pos h]
    simp [h]
  · rw [if_neg h]
    simp [h]

lemma trainGo_ok (C : Collab) (D ei : ℕ)
    (hr : ∀ n, (C.resetS n).length = D) (he : ∀ n, (C.envS n).next_state.length = D) :
    ∀ (k frame : ℕ) (ts : TrainState), DimsOk D ts →
      ∃ tsf, trainGo C ei frame k ts = Except.ok tsf ∧ DimsOk D tsf
        ∧ tsf.agent.frame_history = ts.agent.frame_history ++ logFrames ei frame k
        ∧ tsf.agent.mean_reward_history.length
            = ts.agent.mean_reward_history.length + (logFrames ei frame k).length := by
  intro k
  induction k with
  | zero =>
    intro frame ts hInv
    refine ⟨ts, rfl, hInv, ?_, ?_⟩
    · rw [logFrames]
      simp
    · rw [logFrames]
      simp
  | succ k ih =>
    intro frame ts hInv
    obtain ⟨ts3, hstep, hInv3, hfh, hmh⟩ := trainStep_ok C D ei frame ts hr he hInv
    obtain ⟨tsf, hrest, hInvf, hfh2, hmh2⟩ := ih (frame + 1) ts3 hInv3
    refine ⟨tsf, ?_, hInvf, ?_, ?_⟩
    · show (trainStep C ei frame ts).bind (trainGo C ei (frame + 1) k) = Except.ok tsf
      rw [hstep]
      exact hrest
    · rw [hfh2, hfh, logFrames_succ, List.append_assoc]
    · rw [hmh2, hmh, logFrames_succ, List.length_append]
      by_cases h : frame % ei = 0 <;> simp [h] <;> omega

/-- C4: in `train`, the reporting checkpoints are driven by the absolute
frame counter: every `eval_interval` frames the loop appends `frame` to
`frame_history` and a mean (of the most recent completed-episode rewards,
or `0.0` when none completed) to `mean_reward_history`; consequently, for
any environment and collaborators whose observations match the agent's
input size, `train(num_frames = 200, eval_interval = 50)` from a fresh
agent succeeds with `frame_history == [50, 100, 150, 200]` and
`len(mean_reward_history) == 4`. -/
theorem train_history_200_50 (C : Collab) (q0 o0 : List ℚ) (cap bs : ℕ) (γ : ℚ)
    (freq D nA : ℕ)
    (hr : ∀ n, (C.resetS n).length = D)
    (he : ∀ n, (C.envS n).next_state.length = D) :
    ∃ tsf, train C (freshAgent q0 o0 cap bs γ freq D nA) 200 50 = Except.ok tsf
      ∧ tsf.agent.frame_history = [50, 100, 150, 200]
      ∧ tsf.agent.mean_reward_history.length = 4 := by
  have hInv : DimsOk D
      (⟨freshAgent q0 o0 cap bs γ freq D nA, C.resetS 0, 0, [], 1⟩ : TrainState) := by
    refine ⟨rfl, hr 0, ?_⟩
    intro tr htr
    simp [freshAgent] at htr
  obtain ⟨tsf, hrun, _, hfh, hmh⟩ := trainGo_ok C D 50 hr he 200 1 _ hInv
  refine ⟨tsf, hrun, ?_, ?_⟩
  · rw [hfh]
    show ([] : List ℕ) ++ logFrames 50 1 200 = [50, 100, 150, 200]
    rw [List.nil_append]
    decide
  · rw [hmh]
    show ([] : List ℚ).length + (logFrames 50 1 200).length = 4
    decide

/-- Witness for C4: a constant one-dimensional environment satisfies the
stream hypotheses, and training for 200 frames logs the four checkpoints. -/
theorem train_history_200_50_witness :
    (∀ n, (trivialCollab.resetS n).length = 1)
    ∧ (∀ n, ((trivialCollab.envS n).next_state).length = 1)
    ∧ ∃ tsf, train trivialCollab (freshAgent [0] [] 100 8 1 10 1 1) 200 50
          = Except.ok tsf
        ∧ tsf.agent.frame_history = [50, 100, 150, 200]
        ∧ tsf.agent.mean_reward_history.length = 4 :=
  ⟨fun _ => rfl, fun _ => rfl,
    train_history_200_50 trivialCollab [0] [] 100 8 1 10 1 1
      (fun _ => rfl) (fun _ => rfl)⟩

/-- C8: the buffer's sampling precondition and its use by the loop:
`sample(n)` fails with `InsufficientDataError` exactly when the current
size is below `n`, and the training loop — which samples only after
checking `len(buffer) >= batch_size` — can never fail with
`InsufficientDataError`, whatever state it is run from. -/
theorem sample_precondition (C : Collab) (ei : ℕ) :
    (∀ (b : ReplayBuffer) (n : ℕ) (draws : ℕ → ℕ),
        b.sample n draws = Except.error DQNError.insufficientDataError
          ↔ b.data.length < n)
    ∧ ∀ (frame k : ℕ) (ts : TrainState),
        trainGo C ei frame k ts ≠ Except.error DQNError.insufficientDataError := by
  refine ⟨fun b n draws => sample_error_iff b n draws, ?_⟩
  intro frame k ts
  induction k generalizing frame ts with
  | zero => simp [trainGo]
  | succ k ih =>
    show (trainStep C ei frame ts).bind (trainGo C ei (frame + 1) k)
      ≠ Except.error DQNError.insufficientDataError
    cases hs : trainStep C ei frame ts with
    | error e =>
      intro hcontra
      simp only [Except.bind] at hcontra
      injection hcontra with h2
      exact trainStep_error C ei frame ts e hs h2
    | ok ts3 =>
      exact ih (frame + 1) ts3

/-- Witness for C8: sampling one transition from an empty buffer fails with
`InsufficientDataError`. -/
theorem sample_precondition_witness :
    (⟨1, []⟩ : ReplayBuffer).sample 1 (fun _ => 0)
      = Except.error DQNError.insufficientDataError :=
  ((sample_precondition trivialCollab 50).1 ⟨1, []⟩ 1 (fun _ => 0)).mpr (by decide)

/-- C10: every transition stored by the training loop records as its
terminal flag the disjunction `done or truncated` of the environment
step's two signals: whenever the loop body succeeds, the buffer equals the
input buffer extended by exactly that transition; and for a transition
whose flag is set — in particular one that ended its episode by truncation
(`truncated` true, `done` false) — the learner's TD target reduces to the
bare reward, zeroing the bootstrap term exactly as for a genuinely
terminal transition. -/
theorem stored_flag_done_or_truncated (C : Collab) (ei frame : ℕ) (ts : TrainState) :
    (trainStep C ei frame ts).map (fun ts3 => ts3.agent.buffer.data)
      = (trainStep C ei frame ts).map (fun _ =>
          (ts.agent.buffer.add
            ⟨ts.cur_state,
              (predictAction C.net C.eps_start C.eps_final C.eps_decay ts.agent
                ts.cur_state false (C.uS frame) (C.aS frame)).1,
              (C.envS frame).reward, (C.envS frame).next_state,
              (C.envS frame).done || (C.envS frame).truncated⟩).data)
    ∧ ∀ (γ r m : ℚ) (d : Bool), tdTarget γ r (d || true) m = r := by
  constructor
  · rw [trainStep]
    cases hl : learnPhase C frame (interactPhase C frame ts) with
    | error e => rfl
    | ok ts2 =>
      obtain ⟨hb2, _, _, _, _, _, _, _⟩ :=
        learnPhase_ok_fields C frame (interactPhase C frame ts) ts2 hl
      show Except.ok _ = Except.ok _
      congr 1
      show (logPhase ei frame
          (episodePhase C ((C.envS frame).done || (C.envS frame).truncated)
            ts2)).agent.buffer.data = _
      rw [logPhase_buffer, episodePhase_agent, hb2]
      rfl
  · intro γ r m d
    rw [tdTarget, Bool.or_true]
    simp

/-- Witness for C1's amended statement at `target_update_freq = 2` after 3
updates: the third call re-syncs, so the target equals the online
parameters produced by call `(3 - 1) / 2 * 2 + 1 = 3`. -/
theorem target_sync_schedule_witness :
    (0 < 2)
    ∧ (∀ tr ∈ [(⟨[0], 0, 0, [0], false⟩ : Transition)],
        tr.state.length = 1 ∧ tr.next_state.length = 1)
    ∧ ∃ stn : AgentState,
        updateN (fun _ _ => [0]) (fun _ p => (p.1.map (· + 1), p.2))
            [⟨[0], 0, 0, [0], false⟩] (freshAgent [0] [] 1 1 1 2 1 1) 3 = Except.ok stn
        ∧ stn.input_dim = 1
        ∧ stn.target_update_freq = 2
        ∧ stn.total_steps = 3
        ∧ (stn.q_params, stn.opt_state)
            = (fun p : List ℚ × List ℚ => (p.1.map (· + 1), p.2))^[3] ([0], [])
        ∧ stn.target_params =
            (if 3 = 0 then [0]
             else ((fun p : List ℚ × List ℚ => (p.1.map (· + 1), p.2))^[(3 - 1) / 2 * 2 + 1]
               ([0], [])).1) :=
  ⟨by decide, by decide,
    target_sync_schedule (fun _ _ => [0]) (fun _ p => (p.1.map (· + 1), p.2))
      [⟨[0], 0, 0, [0], false⟩] [0] [] 1 1 1 2 1 1 (by decide) (by decide) 3⟩

end DQN
